import Mathlib

/-!
Shallow embedding of the Terraform validation tools of this repository
(`output_verifier.py`, `terraform_module_validator.py`,
`variable_validation_tester.py`, `comprehensive_validator.py`).

Python strings are modelled as `List Char`; the regular-expression scans of
the scripts are compiled to explicit character-list scanners whose behaviour
matches Python's `re` semantics on the concrete patterns that occur in the
source (all of these patterns are deterministic after a greedy-matching
analysis, which was checked against CPython's `re` module).
-/

namespace TfTools

/-- Python strings are modelled as lists of characters. -/
abbrev Str := List Char

/-- Characters matched by Python's regex class `\s` (equivalently, the
characters stripped by `str.strip()`). -/
def isPySpace (c : Char) : Bool :=
  c = ' ' || c = '\t' || c = '\n' || c = '\x0d' || c = '\x0b' || c = '\x0c'

/-- Python `str.strip()`: remove whitespace from both ends. -/
def pyStrip (s : Str) : Str :=
  ((s.dropWhile isPySpace).reverse.dropWhile isPySpace).reverse

/-- Python `str.lower()` (ASCII case folding suffices for this code base). -/
def pyLower (s : Str) : Str := s.map Char.toLower

/-- Does `pat` occur at the very start of `s`?  (Used to model anchored
literal matching inside the scanners.) -/
def hasStart : Str → Str → Bool
  | [], _ => true
  | _ :: _, [] => false
  | p :: ps, c :: cs => p = c && hasStart ps cs

/-- Python `sub in s`: substring containment. -/
def containsSub (pat : Str) (s : Str) : Bool :=
  match s with
  | [] => hasStart pat []
  | _ :: t => hasStart pat s || containsSub pat t

/-- Python `s.count(pat)` for a non-empty pattern: number of
non-overlapping occurrences, scanning from the left.  (All patterns counted
by the source are non-empty; the emptiness guard only serves totality.) -/
def countSub (pat : Str) : Str → Nat
  | [] => 0
  | c :: t =>
    if hasStart pat (c :: t) && !pat.isEmpty then
      -- skip over the matched occurrence
      countSub pat (t.drop (pat.length - 1)) + 1
    else
      countSub pat t
termination_by s => s.length
decreasing_by
  · simp only [List.length_drop, List.length_cons]
    omega
  · simp

/-- Python `s.split(sep)` for a single-character separator. -/
def splitOnChar (c : Char) : Str → List Str
  | [] => [[]]
  | x :: t =>
    if x = c then [] :: splitOnChar c t
    else
      match splitOnChar c t with
      | [] => [[x]]
      | h :: r => (x :: h) :: r

/-- Python `str.isdigit` (restricted to ASCII, which is all this code base
feeds it): non-empty and all characters are decimal digits. -/
def pyIsDigit (s : Str) : Bool := !s.isEmpty && s.all Char.isDigit

/-- Python `int(s)` on a string of decimal digits. -/
def digitsVal (s : Str) : Nat := s.foldl (fun a c => a * 10 + (c.toNat - 48)) 0

/-- Embedding of `VariableValidationTester._validate_cidr`
(`variable_validation_tester.py` lines 190-213).  The Python code returns
`False` when there is no `/`, raises (and catches, returning `False`) when
there is more than one `/`, and otherwise checks that the address part has
exactly four dot-separated digit-octets in `0..255` and the mask part is a
digit string valued in `0..32`. -/
def validate_cidr (s : Str) : Bool :=
  match splitOnChar '/' s with
  | [ip, mask] =>
    let octets := splitOnChar '.' ip
    octets.length == 4 &&
    octets.all (fun o => pyIsDigit o && decide (digitsVal o ≤ 255)) &&
    (pyIsDigit mask && decide (digitsVal mask ≤ 32))
  | _ => false

/-- The specification's characterisation of the CIDR validator: a single
`/`, four dot-separated decimal octets in `0..255` before it, a decimal
integer in `0..32` after it. -/
def cidrClaim (s : Str) : Prop :=
  ∃ ip mask : Str, s = ip ++ '/' :: mask ∧ '/' ∉ ip ∧ '/' ∉ mask ∧
    (splitOnChar '.' ip).length = 4 ∧
    (∀ o ∈ splitOnChar '.' ip, pyIsDigit o = true ∧ digitsVal o ≤ 255) ∧
    pyIsDigit mask = true ∧ digitsVal mask ≤ 32

/-! ## Generic left-to-right regex-scan machinery

`re.findall` and `re.search` scan left to right, trying to match at every
position and, on success, continuing after the end of the match.  Every
pattern occurring in the scripts is deterministic (greedy matching with no
effective backtracking), so each is compiled to a function
`Str → Option (result × rest)`. -/

/-- Shorthand for string literals. -/
def litS (s : String) : Str := s.toList

/-- Match a literal at the start of the input. -/
def litP (lit : Str) (s : Str) : Option Str :=
  if hasStart lit s then some (s.drop lit.length) else none

/-- Match `\s+` (at least one whitespace character, greedily). -/
def ws1P (s : Str) : Option Str :=
  match s with
  | c :: _ => if isPySpace c then some (s.dropWhile isPySpace) else none
  | [] => none

/-- Match `\s*` (greedy, never fails). -/
def ws0P (s : Str) : Str := s.dropWhile isPySpace

/-- Match a single given character. -/
def charP (c : Char) (s : Str) : Option Str :=
  match s with
  | x :: t => if x = c then some t else none
  | [] => none

/-- Match `[^q]+` followed by the literal character `q`; returns the
captured text and the rest after `q`. -/
def takeUntilP (q : Char) (s : Str) : Option (Str × Str) :=
  match s.dropWhile (· ≠ q) with
  | _ :: t =>
    let pre := s.takeWhile (· ≠ q)
    if pre.isEmpty then none else some (pre, t)
  | [] => none

/-- Fuel-driven scan implementing `re.findall`: try a match at each
position; on success continue after the match, otherwise advance one
character.  Every matcher used below consumes at least one character on
success, so fuel `s.length + 1` is always sufficient. -/
def scanFindall {α : Type} (tryOne : Str → Option (α × Str)) : Nat → Str → List α
  | 0, _ => []
  | n + 1, s =>
    match tryOne s with
    | some (a, rest) => a :: scanFindall tryOne n rest
    | none =>
      match s with
      | [] => []
      | _ :: t => scanFindall tryOne n t

/-- `re.findall` for a deterministic single-match function. -/
def findall {α : Type} (tryOne : Str → Option (α × Str)) (s : Str) : List α :=
  scanFindall tryOne (s.length + 1) s

/-! ## Output verifier (`output_verifier.py`) -/

/-- Severity of one recorded finding (the script's three accumulator
lists `errors` / `warnings` / `info`). -/
inductive Severity
  | error
  | warning
  | info
deriving DecidableEq, Repr

/-- One recorded check result: which list it was appended to, and the
message text. -/
structure Finding where
  sev : Severity
  msg : Str
deriving DecidableEq, Repr

def isErr (f : Finding) : Bool :=
  match f.sev with
  | .error => true
  | _ => false

/-- Number of error-severity findings (the length of the `errors` list). -/
def errCount (l : List Finding) : Nat := l.countP isErr

/-- Matcher for `resource\s+"([^"]+)"\s+"([^"]+)"\s*\x7b` (and the `data`
variant), `output_verifier.py` lines 35 and 39. -/
def tryResource (kw : Str) (s : Str) : Option ((Str × Str) × Str) :=
  match litP kw s with
  | none => none
  | some r1 =>
    match ws1P r1 with
    | none => none
    | some r2 =>
      match charP '\x22' r2 with
      | none => none
      | some r3 =>
        match takeUntilP '\x22' r3 with
        | none => none
        | some (ty, r4) =>
          match ws1P r4 with
          | none => none
          | some r5 =>
            match charP '\x22' r5 with
            | none => none
            | some r6 =>
              match takeUntilP '\x22' r6 with
              | none => none
              | some (nm, r7) =>
                match charP '\x7b' (ws0P r7) with
                | none => none
                | some r9 => some ((ty, nm), r9)

/-- Resource declarations `(type, name)` extracted from the main file
(`OutputVerifier.load_resources`). -/
def resourcesOf (main : Str) : List (Str × Str) :=
  findall (tryResource (litS "resource")) main

/-- Data-source declarations `(type, name)` extracted from the main file. -/
def dataSourcesOf (main : Str) : List (Str × Str) :=
  findall (tryResource (litS "data")) main

/-- The set of available reference strings built in
`verify_output_references`: `type.name` for resources and
`data.type.name` for data sources (set membership is what matters). -/
def availableRefs (main : Str) : List Str :=
  (resourcesOf main).map (fun p => p.1 ++ '.' :: p.2) ++
  (dataSourcesOf main).map (fun p => litS "data." ++ p.1 ++ '.' :: p.2)

/-- Matcher for the output/variable block pattern
`kw\s+"([^"]+)"\s*\x7b([^\x7d]+(?:\x7b[^\x7d]*\x7d[^\x7d]*)*)\x7d`.
A greedy-matching analysis (checked against CPython `re`) shows the inner
alternative can never participate in a successful match: after the greedy
`[^\x7d]+` the next character is a closing brace whenever one exists, so
the capture always extends exactly to the first closing brace.  The
simpler pattern `kw\s+"([^"]+)"\s*\x7b([^\x7d]+)\x7d` used in
`terraform_module_validator.py` therefore has identical match semantics. -/
def tryBlock (kw : Str) (s : Str) : Option ((Str × Str) × Str) :=
  match litP kw s with
  | none => none
  | some r1 =>
    match ws1P r1 with
    | none => none
    | some r2 =>
      match charP '\x22' r2 with
      | none => none
      | some r3 =>
        match takeUntilP '\x22' r3 with
        | none => none
        | some (name, r4) =>
          match charP '\x7b' (ws0P r4) with
          | none => none
          | some r6 =>
            match takeUntilP '\x7d' r6 with
            | none => none
            | some (content, r7) => some ((name, content), r7)

/-- All `(label, body)` block captures for a keyword, in document order. -/
def blockFindall (kw : Str) (s : Str) : List (Str × Str) :=
  findall (tryBlock kw) s

/-- Insert into a Python `dict` modelled as an association list: an
existing key keeps its position and gets the new value, a new key is
appended. -/
def dictUpdate {β : Type} (d : List (Str × β)) (k : Str) (v : β) : List (Str × β) :=
  if d.any (fun p => decide (p.1 = k)) then
    d.map (fun p => if p.1 = k then (k, v) else p)
  else d ++ [(k, v)]

/-- Build a Python `dict` from a list of key/value pairs in order. -/
def dictOf {β : Type} (l : List (Str × β)) : List (Str × β) :=
  l.foldl (fun d p => dictUpdate d p.1 p.2) []

/-- The per-output dictionary built by `OutputVerifier.load_outputs` from
the outputs file, keyed by output name with the captured block body as
payload. -/
def outputDict (file : Str) : List (Str × Str) :=
  dictOf (blockFindall (litS "output") file)

/-- The tail of regex `key\s*=\s*([^\n]+)` after the `=`, with Python
semantics: `\s*` greedily spans newlines; if only whitespace remains, the
group backtracks to the last whitespace character that is not a newline
(matching exactly that one character); if even that fails there is no
match at this position. -/
def matchAssignTail (rest : Str) : Option Str :=
  let r1 := rest.dropWhile isPySpace
  if r1.isEmpty then
    match (rest.filter (fun c => c ≠ '\n')).getLast? with
    | some ch => some [ch]
    | none => none
  else
    some (r1.takeWhile (fun c => c ≠ '\n'))

/-- Try `key\s*=\s*([^\n]+)` anchored at the current position. -/
def tryAssignAt (key : Str) (s : Str) : Option Str :=
  if hasStart key s then
    match (s.drop key.length).dropWhile isPySpace with
    | '=' :: rest => matchAssignTail rest
    | _ => none
  else none

/-- `re.search(key + r'\s*=\s*([^\n]+)', s)` followed by `.strip()` on the
captured group, as in `_extract_value` / `_extract_type` /
`_extract_default` / the `condition` extraction. -/
def searchAssign (key : Str) : Str → Option Str
  | [] => none
  | c :: t =>
    match tryAssignAt key (c :: t) with
    | some g => some (pyStrip g)
    | none => searchAssign key t

/-- Try `key\s*=\s*"([^"]+)"` anchored at the current position. -/
def tryQuotedAt (key : Str) (s : Str) : Option Str :=
  if hasStart key s then
    match (s.drop key.length).dropWhile isPySpace with
    | '=' :: rest =>
      match rest.dropWhile isPySpace with
      | '\x22' :: r2 => (takeUntilP '\x22' r2).map Prod.fst
      | _ => none
    | _ => none
  else none

/-- `re.search(key + r'\s*=\s*"([^"]+)"', s)`, as in `_extract_description`
and the `error_message` extraction. -/
def searchQuoted (key : Str) : Str → Option Str
  | [] => none
  | c :: t =>
    match tryQuotedAt key (c :: t) with
    | some g => some g
    | none => searchQuoted key t

/-- `OutputVerifier._extract_value`. -/
def extract_value (c : Str) : Option Str := searchAssign (litS "value") c

/-- `OutputVerifier._extract_description`. -/
def extract_description (c : Str) : Option Str := searchQuoted (litS "description") c

/-- Try `sensitive\s*=\s*(true|false)` anchored at the current position. -/
def trySensitiveAt (s : Str) : Option Bool :=
  if hasStart (litS "sensitive") s then
    match (s.drop (litS "sensitive").length).dropWhile isPySpace with
    | '=' :: rest =>
      let r2 := rest.dropWhile isPySpace
      if hasStart (litS "true") r2 then some true
      else if hasStart (litS "false") r2 then some false
      else none
    | _ => none
  else none

def searchSensitive : Str → Option Bool
  | [] => none
  | c :: t =>
    match trySensitiveAt (c :: t) with
    | some b => some b
    | none => searchSensitive t

/-- `OutputVerifier._extract_sensitive`: `True` iff the first match's group
is the literal `true`. -/
def extract_sensitive (c : Str) : Bool := (searchSensitive c).getD false

/-- Python truthiness of an extracted optional string (`if output_info['value']:`):
`None` and the empty string are falsy. -/
def pyTruthy (o : Option Str) : Bool :=
  match o with
  | some s => !s.isEmpty
  | none => false

/-- Characters matched by the class `[a-z_]` of the reference patterns. -/
def isRefChar (c : Char) : Bool := c.isLower || c = '_'

/-- Matcher for a two-component reference pattern `lit[a-z_]+\.[a-z_]+`
(`aws_`, `azurerm_`, `google_` and, with `lit = "data."`, the data-source
pattern).  Returns the whole matched text. -/
def tryRef2 (lit : Str) (s : Str) : Option (Str × Str) :=
  match litP lit s with
  | none => none
  | some r1 =>
    let a := r1.takeWhile isRefChar
    if a.isEmpty then none
    else
      match r1.drop a.length with
      | '.' :: r2 =>
        let b := r2.takeWhile isRefChar
        if b.isEmpty then none
        else some (lit ++ a ++ '.' :: b, r2.drop b.length)
      | _ => none

/-- Matcher for a one-component reference pattern `lit[a-z_]+`
(`local.` and `var.`). -/
def tryRef1 (lit : Str) (s : Str) : Option (Str × Str) :=
  match litP lit s with
  | none => none
  | some r1 =>
    let a := r1.takeWhile isRefChar
    if a.isEmpty then none else some (lit ++ a, r1.drop a.length)

/-- The concatenated `findall` results of the six reference patterns of
`_verify_value_references` on a value expression. -/
def refMatchersResults (v : Str) : List Str :=
  findall (tryRef2 (litS "aws_")) v ++
  findall (tryRef2 (litS "azurerm_")) v ++
  findall (tryRef2 (litS "google_")) v ++
  findall (tryRef2 (litS "data.")) v ++
  findall (tryRef1 (litS "local.")) v ++
  findall (tryRef1 (litS "var.")) v

/-- The `found_refs` set of `_verify_value_references` (iteration order of
a Python set is unspecified; only membership matters to the findings
recorded, so a deduplicated list is a faithful model). -/
def found_refs (v : Str) : List Str := (refMatchersResults v).dedup

def validRefMsg (name ref : Str) : Str :=
  litS "✓ Output \x27" ++ name ++ litS "\x27 references valid resource: " ++ ref

def invalidRefMsg (name ref : Str) : Str :=
  litS "✗ Output \x27" ++ name ++ litS "\x27 references invalid resource: " ++ ref

def varLocalPrintLine (ref : Str) : Str :=
  litS "    ℹ️  Reference: " ++ ref ++ litS " (variable/local)"

/-- The loop body of `_verify_value_references` for one reference: the
`var.`/`local.` branch only prints an informational line and records
nothing; otherwise membership in the available-reference set decides
between an info and an error finding.  Returns (recorded findings,
printed lines). -/
def classifyRef (name : Str) (avail : List Str) (ref : Str) : List Finding × List Str :=
  if hasStart (litS "var.") ref || hasStart (litS "local.") ref then
    ([], [varLocalPrintLine ref])
  else if ref ∈ avail then
    ([⟨.info, validRefMsg name ref⟩], [litS "    ✅ Valid reference: " ++ ref])
  else
    ([⟨.error, invalidRefMsg name ref⟩], [litS "    ❌ Invalid reference: " ++ ref])

/-- `OutputVerifier._verify_value_references`: findings recorded and lines
printed for one output value. -/
def verify_value_references (name v : Str) (avail : List Str) : List Finding × List Str :=
  ((found_refs v).flatMap (fun r => (classifyRef name avail r).1),
   (found_refs v).flatMap (fun r => (classifyRef name avail r).2))

def missingValueMsg (name : Str) : Str :=
  litS "✗ Output \x27" ++ name ++ litS "\x27 missing value"

/-- Description check of the `verify_output_references` loop body. -/
def descFindings (name c : Str) : List Finding :=
  if pyTruthy (extract_description c) then
    [⟨.info, litS "✓ Output \x27" ++ name ++ litS "\x27 has description"⟩]
  else
    [⟨.warning, litS "⚠ Output \x27" ++ name ++ litS "\x27 missing description"⟩]

/-- The reference-classification findings recorded for one output: empty
unless a truthy value was extracted. -/
def refClassFindings (name c : Str) (avail : List Str) : List Finding :=
  match extract_value c with
  | some v => if v.isEmpty then [] else (verify_value_references name v avail).1
  | none => []

/-- Value check of the `verify_output_references` loop body. -/
def valueFindings (name c : Str) (avail : List Str) : List Finding :=
  if pyTruthy (extract_value c) then
    ⟨.info, litS "✓ Output \x27" ++ name ++ litS "\x27 has value"⟩ ::
      refClassFindings name c avail
  else
    [⟨.error, missingValueMsg name⟩]

/-- Findings recorded by one iteration of the `verify_output_references`
loop (the sensitive flag is only printed, never recorded). -/
def processOutput (name c : Str) (avail : List Str) : List Finding :=
  descFindings name c ++ valueFindings name c avail

/-- Search for `value\s*=` inside a single line (used to state the spec
claim about output blocks with no `value` assignment line). -/
def tryValueKeyAt (s : Str) : Bool :=
  hasStart (litS "value") s &&
    (match (s.drop (litS "value").length).dropWhile isPySpace with
     | '=' :: _ => true
     | _ => false)

def searchValueKey : Str → Bool
  | [] => false
  | c :: t => tryValueKeyAt (c :: t) || searchValueKey t

/-! ## Module validator (`terraform_module_validator.py`)

The validator reads a module directory; the directory is modelled as a
list of files (name, content) plus a list of other existing directory
entries. -/

/-- The module directory as seen by the validator. -/
structure FS where
  files : List (Str × Str)
  dirs : List Str
deriving DecidableEq

/-- `Path.exists()` for a name inside the module directory. -/
def fsHas (fs : FS) (name : Str) : Bool :=
  fs.files.any (fun p => decide (p.1 = name)) || fs.dirs.any (fun d => decide (d = name))

/-- Content of an existing file (callers only use it after an existence
check; a missing file reads as empty). -/
def fsContent (fs : FS) (name : Str) : Str :=
  match fs.files.find? (fun p => decide (p.1 = name)) with
  | some p => p.2
  | none => []

/-- `glob('*.tf')`: the configuration files of the directory. -/
def tfFiles (fs : FS) : List (Str × Str) :=
  fs.files.filter (fun p => (litS ".tf").isSuffixOf p.1)

def requiredFiles : List Str :=
  [litS "main.tf", litS "variables.tf", litS "outputs.tf", litS "versions.tf"]

def recommendedFiles : List Str :=
  [litS "README.md", litS "examples/"]

/-- `TerraformModuleValidator.validate_file_structure`. -/
def validate_file_structure (fs : FS) : List Finding :=
  requiredFiles.map (fun f =>
    if fsHas fs f then ⟨.info, litS "✓ Required file exists: " ++ f⟩
    else ⟨.error, litS "✗ Missing required file: " ++ f⟩) ++
  recommendedFiles.map (fun f =>
    if fsHas fs f then ⟨.info, litS "✓ Recommended file/directory exists: " ++ f⟩
    else ⟨.warning, litS "⚠ Missing recommended file/directory: " ++ f⟩)

/-- Decimal rendering of a count interpolated into a message. -/
def natStr (n : Nat) : Str := (Nat.repr n).toList

/-- `TerraformModuleValidator._check_brackets`: global brace counts,
error with both counts on mismatch, info otherwise. -/
def check_brackets (content fname : Str) : List Finding :=
  let openB := List.count '\x7b' content
  let closeB := List.count '\x7d' content
  if openB ≠ closeB then
    [⟨.error, litS "✗ " ++ fname ++ litS ": Unbalanced braces - " ++ natStr openB ++
      litS " open, " ++ natStr closeB ++ litS " close"⟩]
  else
    [⟨.info, litS "✓ " ++ fname ++ litS ": Brackets are balanced"⟩]

/-- `TerraformModuleValidator._check_quotes`: per-line quote parity,
skipping lines whose stripped form starts with `#`. -/
def check_quotes (content fname : Str) : List Finding :=
  (splitOnChar '\n' content).enum.flatMap (fun p =>
    if hasStart [ '#' ] (pyStrip p.2) then []
    else
      let q : Int := (countSub [ '\x22' ] p.2 : Int) - (countSub (litS "\\\x22") p.2 : Int)
      if q % 2 ≠ 0 then
        [⟨.warning, litS "⚠ " ++ fname ++ litS ":" ++ natStr (p.1 + 1) ++
          litS ": Possible unbalanced quotes"⟩]
      else [])

/-- Matcher for `kw\s+"([^"]+)"\s*\x7b` (the headers counted by
`_check_resource_syntax` for `variable` and `output`). -/
def tryHeader (kw : Str) (s : Str) : Option (Str × Str) :=
  match litP kw s with
  | none => none
  | some r1 =>
    match ws1P r1 with
    | none => none
    | some r2 =>
      match charP '\x22' r2 with
      | none => none
      | some r3 =>
        match takeUntilP '\x22' r3 with
        | none => none
        | some (name, r4) =>
          match charP '\x7b' (ws0P r4) with
          | none => none
          | some r6 => some (name, r6)

/-- `TerraformModuleValidator._check_resource_syntax`: informational
counts of resource blocks, plus per-file variable/output counts. -/
def check_resource_blocks (content fname : Str) : List Finding :=
  (if 0 < (findall (tryResource (litS "resource")) content).length then
    [⟨.info, litS "✓ " ++ fname ++ litS ": Found " ++
      natStr (findall (tryResource (litS "resource")) content).length ++
      litS " resource blocks"⟩]
   else []) ++
  (if fname = litS "variables.tf" then
    [⟨.info, litS "✓ " ++ fname ++ litS ": Found " ++
      natStr (findall (tryHeader (litS "variable")) content).length ++
      litS " variable definitions"⟩]
   else []) ++
  (if fname = litS "outputs.tf" then
    [⟨.info, litS "✓ " ++ fname ++ litS ": Found " ++
      natStr (findall (tryHeader (litS "output")) content).length ++
      litS " output definitions"⟩]
   else [])

/-- `TerraformModuleValidator.validate_terraform_syntax`: for every
configuration file, an informational header plus the three per-file
checks. -/
def validate_tf_file_checks (fs : FS) : List Finding :=
  (tfFiles fs).flatMap (fun p =>
    ⟨.info, litS "Checking syntax for: " ++ p.1⟩ ::
      (check_brackets p.2 p.1 ++ check_quotes p.2 p.1 ++ check_resource_blocks p.2 p.1))

/-- Matcher for `variable\s+"([^"]+)"` (no brace required), used by
`validate_variables`. -/
def tryVarName (s : Str) : Option (Str × Str) :=
  match litP (litS "variable") s with
  | none => none
  | some r1 =>
    match ws1P r1 with
    | none => none
    | some r2 =>
      match charP '\x22' r2 with
      | none => none
      | some r3 => takeUntilP '\x22' r3

/-- `TerraformModuleValidator.validate_variables`: usage check of every
declared variable name in the main file (info/warning only). -/
def validator_validate_variables (fs : FS) : List Finding :=
  if fsHas fs (litS "variables.tf") && fsHas fs (litS "main.tf") then
    let names := findall tryVarName (fsContent fs (litS "variables.tf"))
    let mainC := fsContent fs (litS "main.tf")
    ⟨.info, litS "✓ Found " ++ natStr names.length ++ litS " variable definitions"⟩ ::
    names.map (fun n =>
      if containsSub (litS "var." ++ n) mainC then
        ⟨.info, litS "✓ Variable \x27" ++ n ++ litS "\x27 is used in main.tf"⟩
      else
        ⟨.warning, litS "⚠ Variable \x27" ++ n ++ litS "\x27 is defined but not used"⟩)
  else []

/-- `TerraformModuleValidator.validate_outputs`: description (warning) and
value (error) presence via plain substring tests on each output block. -/
def validator_validate_outputs (fs : FS) : List Finding :=
  if fsHas fs (litS "outputs.tf") then
    (blockFindall (litS "output") (fsContent fs (litS "outputs.tf"))).flatMap (fun p =>
      (if containsSub (litS "description") p.2 then
        [⟨.info, litS "✓ Output \x27" ++ p.1 ++ litS "\x27 has description"⟩]
       else [⟨.warning, litS "⚠ Output \x27" ++ p.1 ++ litS "\x27 missing description"⟩]) ++
      (if containsSub (litS "value") p.2 then
        [⟨.info, litS "✓ Output \x27" ++ p.1 ++ litS "\x27 has value"⟩]
       else [⟨.error, litS "✗ Output \x27" ++ p.1 ++ litS "\x27 missing value"⟩]))
  else []

/-- `TerraformModuleValidator.validate_variable_constraints`: raw
substring counts, informational only. -/
def validate_variable_constraints (fs : FS) : List Finding :=
  if fsHas fs (litS "variables.tf") then
    let c := fsContent fs (litS "variables.tf")
    [⟨.info, litS "✓ Found " ++ natStr (countSub (litS "validation \x7b") c) ++
      litS " variable validation blocks"⟩,
     ⟨.info, litS "✓ Found " ++ natStr (countSub (litS "default =") c) ++
      litS " variables with default values"⟩,
     ⟨.info, litS "✓ Found " ++ natStr (countSub (litS "type =") c) ++
      litS " variables with type definitions"⟩]
  else []

/-- Full match of `^[a-z][a-z0-9_]*$` — the snake_case convention the
repository itself checks resource names against. -/
def snakeMatch (s : Str) : Bool :=
  match s with
  | [] => false
  | c :: rest => c.isLower && rest.all (fun x => x.isLower || x.isDigit || x = '_')

/-- Matcher for `resource\s+"([^"]+)"\s+"([^"]+)"` (no brace), used by
`validate_naming_conventions`. -/
def tryResourceNB (s : Str) : Option ((Str × Str) × Str) :=
  match litP (litS "resource") s with
  | none => none
  | some r1 =>
    match ws1P r1 with
    | none => none
    | some r2 =>
      match charP '\x22' r2 with
      | none => none
      | some r3 =>
        match takeUntilP '\x22' r3 with
        | none => none
        | some (ty, r4) =>
          match ws1P r4 with
          | none => none
          | some r5 =>
            match charP '\x22' r5 with
            | none => none
            | some r6 =>
              match takeUntilP '\x22' r6 with
              | none => none
              | some (nm, r7) => some ((ty, nm), r7)

/-- `TerraformModuleValidator.validate_naming_conventions` (info/warning
only). -/
def validate_naming_conventions (fs : FS) : List Finding :=
  (tfFiles fs).flatMap (fun p =>
    (findall tryResourceNB p.2).map (fun r =>
      if snakeMatch r.2 then
        ⟨.info, litS "✓ Resource \x27" ++ r.2 ++ litS "\x27 follows naming convention"⟩
      else
        ⟨.warning, litS "⚠ Resource \x27" ++ r.2 ++
          litS "\x27 doesn\x27t follow snake_case convention"⟩))

/-- All findings accumulated by `TerraformModuleValidator.run_validation`,
in execution order. -/
def run_validation_findings (fs : FS) : List Finding :=
  validate_file_structure fs ++ validate_tf_file_checks fs ++
  validator_validate_variables fs ++ validator_validate_outputs fs ++
  validate_variable_constraints fs ++ validate_naming_conventions fs

/-- The boolean summary returned by `run_validation`: `True` iff the error
list is empty. -/
def run_validation (fs : FS) : Bool :=
  errCount (run_validation_findings fs) == 0

/-! ## Variable validation simulator (`variable_validation_tester.py`) -/

/-- Python values occurring in the simulator's test-case tables. -/
inductive PyVal
  | str (s : Str)
  | bool (b : Bool)
  | list (l : List Str)
  | none
deriving DecidableEq

/-- Python `str(v)` for the values above (list items are short
quote-free strings, so `repr` is plain single-quoting). -/
def pyStrOf : PyVal → Str
  | .str s => s
  | .bool true => litS "True"
  | .bool false => litS "False"
  | .none => litS "None"
  | .list l =>
    '[' :: (List.intercalate (litS ", ") (l.map (fun s => '\x27' :: (s ++ [ '\x27' ])))) ++ [ ']' ]

/-- The per-variable record built by `load_variable_validations`. -/
structure VarInfo where
  type? : Option Str
  default? : Option Str
  rules : List (Str × Str)
deriving DecidableEq

/-- `VariableValidationTester._extract_type`. -/
def extract_type (c : Str) : Option Str := searchAssign (litS "type") c

/-- `VariableValidationTester._extract_default`. -/
def extract_default (c : Str) : Option Str := searchAssign (litS "default") c

/-- Matcher for `validation\s*\x7b([^\x7d]+)\x7d`. -/
def tryValidationBlock (s : Str) : Option (Str × Str) :=
  match litP (litS "validation") s with
  | none => none
  | some r1 =>
    match charP '\x7b' (ws0P r1) with
    | none => none
    | some r2 => takeUntilP '\x7d' r2

/-- `VariableValidationTester._extract_validation_rules`: keep blocks in
which both a condition assignment and a quoted error message match. -/
def extract_validation_rules (c : Str) : List (Str × Str) :=
  (findall tryValidationBlock c).filterMap (fun b =>
    match searchAssign (litS "condition") b, searchQuoted (litS "error_message") b with
    | some cond, some msg => some (cond, msg)
    | _, _ => none)

def mkVarInfo (c : Str) : VarInfo :=
  ⟨extract_type c, extract_default c, extract_validation_rules c⟩

/-- `VariableValidationTester.load_variable_validations`: empty when the
variables file is missing, otherwise the dictionary keyed by variable
name. -/
def load_variable_validations (fs : FS) : List (Str × VarInfo) :=
  if fsHas fs (litS "variables.tf") then
    dictOf ((blockFindall (litS "variable") (fsContent fs (litS "variables.tf"))).map
      (fun p => (p.1, mkVarInfo p.2)))
  else []

/-- Python `str(var_type)` where the stored type may be `None`. -/
def typeStrOf : Option Str → Str
  | some s => s
  | Option.none => litS "None"

/-- `VariableValidationTester.generate_test_cases`: the hard-coded
`(value, expected, label)` battery keyed by substrings of the variable
name, falling back to type-based and generic cases. -/
def generate_test_cases (varName : Str) (info : VarInfo) : List (PyVal × Bool × Str) :=
  if containsSub (litS "region") (pyLower varName) then
    [(.str (litS "us-east-1"), true, litS "Valid US East region"),
     (.str (litS "eu-west-1"), true, litS "Valid EU West region"),
     (.str (litS "invalid-region"), false, litS "Invalid region format"),
     (.str (litS "us-east"), false, litS "Incomplete region format")]
  else if containsSub (litS "cidr") (pyLower varName) then
    [(.str (litS "10.0.0.0/16"), true, litS "Valid private CIDR"),
     (.str (litS "192.168.1.0/24"), true, litS "Valid private CIDR"),
     (.str (litS "172.16.0.0/12"), true, litS "Valid private CIDR"),
     (.str (litS "invalid-cidr"), false, litS "Invalid CIDR format"),
     (.str (litS "10.0.0.0/33"), false, litS "Invalid CIDR mask")]
  else if containsSub (litS "instance_type") (pyLower varName) then
    [(.str (litS "t3.micro"), true, litS "Valid instance type"),
     (.str (litS "m5.large"), true, litS "Valid instance type"),
     (.str (litS "c5.xlarge"), true, litS "Valid instance type"),
     (.str (litS "invalid.type"), false, litS "Invalid instance type"),
     (.str (litS "nonexistent.huge"), false, litS "Non-existent instance type")]
  else if containsSub (litS "name") (pyLower varName) ||
      containsSub (litS "prefix") (pyLower varName) then
    [(.str (litS "valid-name"), true, litS "Valid name"),
     (.str (litS "test123"), true, litS "Valid name with numbers"),
     (.str (litS "INVALID"), false, litS "Uppercase not allowed"),
     (.str (litS "invalid_name"), false, litS "Underscores not allowed"),
     (.str (litS "123invalid"), false, litS "Cannot start with number")]
  else if containsSub (litS "environment") (pyLower varName) ||
      containsSub (litS "env") (pyLower varName) then
    [(.str (litS "dev"), true, litS "Valid environment"),
     (.str (litS "prod"), true, litS "Valid environment"),
     (.str (litS "staging"), true, litS "Valid environment"),
     (.str (litS "invalid-env"), false, litS "Invalid environment")]
  else if containsSub (litS "ami") (pyLower varName) then
    [(.str (litS "ami-12345678"), true, litS "Valid AMI ID"),
     (.str (litS "ami-abcdef1234567890"), true, litS "Valid long AMI ID"),
     (.str (litS "invalid-ami"), false, litS "Invalid AMI format"),
     (.str (litS "ami-"), false, litS "Incomplete AMI ID")]
  else if (match info.type? with
           | some t => containsSub (litS "list") t
           | Option.none => false) then
    [(.list [litS "item1", litS "item2"], true, litS "Valid list"),
     (.list [], true, litS "Empty list"),
     (.str (litS "not-a-list"), false, litS "Invalid type")]
  else if (match info.type? with
           | some t => containsSub (litS "bool") t
           | Option.none => false) then
    [(.bool true, true, litS "Valid boolean true"),
     (.bool false, true, litS "Valid boolean false"),
     (.str (litS "true"), false, litS "String instead of boolean")]
  else
    [(.str (litS "valid-value"), true, litS "Generic valid value"),
     (.str [], false, litS "Empty string"),
     (.none, false, litS "Null value")]

/-- Full match of `^[a-z]\x7b2\x7d-[a-z]+-[0-9]$` (region shape). -/
def regionMatch (s : Str) : Bool :=
  match s with
  | a :: b :: '-' :: rest =>
    a.isLower && b.isLower &&
    (let run := rest.takeWhile Char.isLower
     !run.isEmpty &&
     (match rest.drop run.length with
      | '-' :: [d] => d.isDigit
      | _ => false))
  | _ => false

/-- Full match of `^ami-[0-9a-f]\x7b8,17\x7d$`. -/
def amiMatch (s : Str) : Bool :=
  hasStart (litS "ami-") s &&
  (let rest := s.drop 4
   rest.all (fun c => c.isDigit || ('a' ≤ c && c ≤ 'f')) &&
   decide (8 ≤ rest.length) && decide (rest.length ≤ 17))

/-- Full match of `^[a-z][a-z0-9-]*[a-z0-9]$`: the simulator's rule for
name-like variables (lowercase start, hyphens allowed in the middle,
letter or digit at the end — underscores are rejected). -/
def kebabMatch (s : Str) : Bool :=
  match s with
  | [] => false
  | c :: rest =>
    !rest.isEmpty && c.isLower &&
    rest.dropLast.all (fun x => x.isLower || x.isDigit || x = '-') &&
    (match rest.getLast? with
     | some l => l.isLower || l.isDigit
     | Option.none => false)

def isBoolVal : PyVal → Bool
  | .bool _ => true
  | _ => false

def isListVal : PyVal → Bool
  | .list _ => true
  | _ => false

/-- `VariableValidationTester.simulate_validation`: type checks first,
then the per-name-category hard-coded rules, defaulting to valid. -/
def simulate_validation (varName : Str) (v : PyVal) (info : VarInfo) : Bool :=
  let tstr := typeStrOf info.type?
  if containsSub (litS "bool") tstr && !isBoolVal v then false
  else if containsSub (litS "list") tstr && !isListVal v then false
  else if containsSub (litS "region") (pyLower varName) then regionMatch (pyStrOf v)
  else if containsSub (litS "cidr") (pyLower varName) then validate_cidr (pyStrOf v)
  else if containsSub (litS "ami") (pyLower varName) then amiMatch (pyStrOf v)
  else if containsSub (litS "name") (pyLower varName) ||
      containsSub (litS "prefix") (pyLower varName) then
    match v with
    | .str s => kebabMatch s
    | _ => false
  else true

/-- `VariableValidationTester.test_variable_combinations`: `False` when no
variables were loaded, otherwise `passed == total` over all generated
test cases. -/
def test_variable_combinations (fs : FS) : Bool :=
  let validations := load_variable_validations fs
  if validations.isEmpty then false
  else
    let results := validations.flatMap (fun p =>
      (generate_test_cases p.1 p.2).map (fun tc =>
        simulate_validation p.1 tc.1 p.2 == tc.2.1))
    List.count true results == results.length

/-! ## Orchestrator (`comprehensive_validator.py`) -/

/-- The checklist lines printed by `check_terraform_best_practices`. -/
def bestPracticesList (fs : FS) : List Str :=
  (if fsHas fs (litS "versions.tf") then
     (if containsSub (litS "required_providers") (fsContent fs (litS "versions.tf")) then
        [litS "✅ Provider version constraints defined"]
      else [litS "⚠️  Provider version constraints missing"])
   else [litS "⚠️  versions.tf file missing"]) ++
  (if fsHas fs (litS "examples") then [litS "✅ Examples directory exists"]
   else [litS "⚠️  Examples directory missing"]) ++
  (if fsHas fs (litS "README.md") then
     litS "✅ README.md exists" ::
     ((if containsSub (litS "usage") (pyLower (fsContent fs (litS "README.md"))) then
         [litS "✅ README contains usage section"]
       else [litS "⚠️  README missing usage section"]) ++
      (if containsSub (litS "requirements") (pyLower (fsContent fs (litS "README.md"))) ||
          containsSub (litS "prerequisites") (pyLower (fsContent fs (litS "README.md"))) then
         [litS "✅ README contains requirements section"]
       else [litS "⚠️  README missing requirements section"]))
   else [litS "❌ README.md missing"]) ++
  (if fsHas fs (litS ".gitignore") then [litS "✅ .gitignore exists"]
   else [litS "⚠️  .gitignore missing"]) ++
  (if fsHas fs (litS "locals.tf") then
     [litS "✅ locals.tf exists (good for complex expressions)"]
   else [])

/-- `check_terraform_best_practices`: prints the checklist and returns
`True` on every path. -/
def check_terraform_best_practices (fs : FS) : List Str × Bool :=
  (bestPracticesList fs, true)

/-- The results list `main` accumulates: the three subprocess outcomes
(success iff the child exited with status zero, supplied here as
booleans) followed by the best-practices check. -/
def validation_results (r1 r2 r3 : Bool) (fs : FS) : List (Str × Bool) :=
  [(litS "Module Structure and Syntax Validation", r1),
   (litS "Variable Validation Testing", r2),
   (litS "Output Verification", r3),
   (litS "Terraform Best Practices", (check_terraform_best_practices fs).2)]

/-- The boolean returned by `main`: passed count equals total count. -/
def main_result (r1 r2 r3 : Bool) (fs : FS) : Bool :=
  let results := validation_results r1 r2 r3 fs
  (results.countP (fun p => p.2)) == results.length

/-- The process exit status: `0` iff `main` returned `True`. -/
def main_exit_code (r1 r2 r3 : Bool) (fs : FS) : Nat :=
  if main_result r1 r2 r3 fs then 0 else 1

/-! ## Lemmas and claim theorems -/

lemma splitOnChar_ne_nil (c : Char) (s : Str) : splitOnChar c s ≠ [] := by
  induction s with
  | nil => simp [splitOnChar]
  | cons x t ih =>
    by_cases hx : x = c
    · simp [splitOnChar, hx]
    · simp only [splitOnChar, if_neg hx]
      cases h : splitOnChar c t with
      | nil => simp
      | cons hd tl => simp

lemma splitOnChar_eq_single (c : Char) (s b : Str) :
    splitOnChar c s = [b] ↔ s = b ∧ c ∉ b := by
  induction s generalizing b with
  | nil =>
    constructor
    · intro h
      simp only [splitOnChar] at h
      injection h with h1 h2
      subst h1
      exact ⟨rfl, by simp⟩
    · rintro ⟨rfl, -⟩
      simp [splitOnChar]
  | cons x t ih =>
    by_cases hx : x = c
    · subst hx
      constructor
      · intro h
        simp only [splitOnChar, if_pos rfl] at h
        injection h with h1 h2
        exact absurd h2 (splitOnChar_ne_nil x t)
      · rintro ⟨rfl, hb⟩
        exact absurd (List.mem_cons_self x t) hb
    · constructor
      · intro h
        simp only [splitOnChar, if_neg hx] at h
        cases hs : splitOnChar c t with
        | nil => exact absurd hs (splitOnChar_ne_nil c t)
        | cons hd tl =>
          rw [hs] at h
          injection h with h1 h2
          subst h2
          subst h1
          obtain ⟨ht, hchd⟩ := (ih hd).mp hs
          refine ⟨by rw [ht], ?_⟩
          simp only [List.mem_cons]
          rintro (h4 | h4)
          · exact hx h4.symm
          · exact hchd h4
      · rintro ⟨rfl, hb⟩
        simp only [splitOnChar, if_neg hx]
        have hct : c ∉ t := fun hm => hb (List.mem_cons_of_mem _ hm)
        rw [(ih t).mpr ⟨rfl, hct⟩]

lemma splitOnChar_eq_pair (c : Char) (s a b : Str) :
    splitOnChar c s = [a, b] ↔ s = a ++ c :: b ∧ c ∉ a ∧ c ∉ b := by
  induction s generalizing a with
  | nil =>
    constructor
    · intro h
      simp [splitOnChar] at h
    · rintro ⟨he, -, -⟩
      simp at he
  | cons x t ih =>
    by_cases hx : x = c
    · subst hx
      constructor
      · intro h
        simp only [splitOnChar, if_pos rfl] at h
        injection h with h1 h2
        subst h1
        obtain ⟨rfl, hb⟩ := (splitOnChar_eq_single x t b).mp h2
        exact ⟨rfl, by simp, hb⟩
      · rintro ⟨he, ha, hb⟩
        rcases a with _ | ⟨y, a'⟩
        · simp only [List.nil_append] at he
          injection he with h1 h2
          subst h2
          have hsingle := (splitOnChar_eq_single x t t).mpr ⟨rfl, hb⟩
          simp [splitOnChar, hsingle]
        · injection he with h1 h2
          exact absurd (show x ∈ y :: a' by rw [h1]; exact List.mem_cons_self y a') ha
    · constructor
      · intro h
        simp only [splitOnChar, if_neg hx] at h
        cases hs : splitOnChar c t with
        | nil => exact absurd hs (splitOnChar_ne_nil c t)
        | cons hd tl =>
          rw [hs] at h
          injection h with h1 h2
          subst h1
          subst h2
          obtain ⟨rfl, hhd, hb⟩ := (ih hd).mp hs
          refine ⟨rfl, ?_, hb⟩
          simp only [List.mem_cons]
          rintro (h4 | h4)
          · exact hx h4.symm
          · exact hhd h4
      · rintro ⟨he, ha, hb⟩
        rcases a with _ | ⟨y, a'⟩
        · simp only [List.nil_append] at he
          injection he with h1 h2
          exact absurd h1 hx
        · injection he with h1 h2
          subst h1
          have ha' : c ∉ a' := fun hm => ha (List.mem_cons_of_mem _ hm)
          have h3 := (ih a').mpr ⟨h2, ha', hb⟩
          simp only [splitOnChar, if_neg hx]
          rw [h3]

/-- C5: the simulator's built-in CIDR validator accepts `10.0.0.0/16` and
rejects `10.0.0.0/33`; in general it accepts exactly the strings with a
single `/`, four dot-separated decimal octets in `0..255` before it, and a
decimal integer in `0..32` after it. -/
theorem cidr_validator_spec :
    validate_cidr (String.toList "10.0.0.0/16") = true ∧
    validate_cidr (String.toList "10.0.0.0/33") = false ∧
    ∀ s : Str, validate_cidr s = true ↔ cidrClaim s := by
  refine ⟨by decide, by decide, ?_⟩
  intro s
  constructor
  · intro h
    unfold validate_cidr at h
    split at h
    next ip mask heq =>
      obtain ⟨hs, hip, hmask⟩ := (splitOnChar_eq_pair '/' s ip mask).mp heq
      simp only [Bool.and_eq_true, beq_iff_eq, List.all_eq_true,
        decide_eq_true_eq] at h
      exact ⟨ip, mask, hs, hip, hmask, h.1.1, fun o ho => (h.1.2 o ho), h.2.1, h.2.2⟩
    next => exact absurd h (by simp)
  · rintro ⟨ip, mask, hs, hip, hmask, hlen, hoct, hmd, hmv⟩
    have hsp : splitOnChar '/' s = [ip, mask] :=
      (splitOnChar_eq_pair '/' s ip mask).mpr ⟨hs, hip, hmask⟩
    unfold validate_cidr
    rw [hsp]
    simp only [Bool.and_eq_true, beq_iff_eq, List.all_eq_true, decide_eq_true_eq]
    exact ⟨⟨hlen, fun o ho => hoct o ho⟩, hmd, hmv⟩

/-! ## Lemmas about reference strings -/

lemma append_dot_inj {t n t' n' : Str} (h : t ++ '.' :: n = t' ++ '.' :: n')
    (ht : '.' ∉ t) (ht' : '.' ∉ t') : t = t' ∧ n = n' := by
  induction t generalizing t' with
  | nil =>
    cases t' with
    | nil =>
      injection h with h1 h2
      exact ⟨rfl, h2⟩
    | cons b t2 =>
      injection h with h1 h2
      exact absurd (h1 ▸ List.mem_cons_self b t2) ht'
  | cons a t1 ih =>
    cases t' with
    | nil =>
      injection h with h1 h2
      exact absurd (h1.symm ▸ List.mem_cons_self a t1) ht
    | cons b t2 =>
      injection h with h1 h2
      subst h1
      have ht1 : '.' ∉ t1 := fun hm => ht (List.mem_cons_of_mem _ hm)
      have ht2 : '.' ∉ t2 := fun hm => ht' (List.mem_cons_of_mem _ hm)
      obtain ⟨h3, h4⟩ := ih h2 ht1 ht2
      exact ⟨by rw [h3], h4⟩

/-- The reference string `aws_instance.web` is available exactly when the
main file declares a resource of type `aws_instance` named `web` (a
data-source reference always starts with `data.` and cannot collide, and
no other resource pair concatenates to this string because it contains a
single dot). -/
lemma mem_availableRefs_aws_instance_web (main : Str) :
    litS "aws_instance.web" ∈ availableRefs main ↔
      (litS "aws_instance", litS "web") ∈ resourcesOf main := by
  constructor
  · intro h
    rcases List.mem_append.mp h with h | h
    · obtain ⟨⟨t, nm⟩, hmem, heq⟩ := List.mem_map.mp h
      have hcnt := congrArg (List.count '.') heq
      simp only [List.count_append, List.count_cons_self] at hcnt
      have hc2 : List.count '.' (litS "aws_instance.web") = 1 := by decide
      rw [hc2] at hcnt
      have hct : List.count '.' t = 0 := by omega
      have hdt : '.' ∉ t := by
        intro hm
        have := List.count_pos_iff.mpr hm
        omega
      have hdt' : '.' ∉ litS "aws_instance" := by decide
      have htarget : litS "aws_instance.web" =
          litS "aws_instance" ++ '.' :: litS "web" := by decide
      rw [htarget] at heq
      obtain ⟨h1, h2⟩ := append_dot_inj heq hdt hdt'
      have h1' : t = litS "aws_instance" := h1
      have h2' : nm = litS "web" := h2
      subst h1'
      subst h2'
      exact hmem
    · obtain ⟨⟨t, nm⟩, hmem, heq⟩ := List.mem_map.mp h
      exfalso
      have hcnt := congrArg (List.count '.') heq
      simp only [List.count_append, List.count_cons_self] at hcnt
      have hc1 : List.count '.' (litS "data.") = 1 := by decide
      have hc2 : List.count '.' (litS "aws_instance.web") = 1 := by decide
      rw [hc1, hc2] at hcnt
      omega
  · intro h
    refine List.mem_append.mpr (Or.inl ?_)
    refine List.mem_map.mpr ⟨(litS "aws_instance", litS "web"), h, ?_⟩
    decide

/-- C1: for an output value that is exactly `aws_instance.web.id`, the
reference verifier records the valid-reference info finding and no
invalid-reference error when the main file declares
`resource "aws_instance" "web"`, and records the invalid-reference error
finding when no such resource is declared (a data source can never supply
the reference `aws_instance.web`). -/
theorem output_ref_aws_instance_web (main name : Str) :
    (((litS "aws_instance", litS "web") ∈ resourcesOf main) →
      Finding.mk .info (validRefMsg name (litS "aws_instance.web")) ∈
        (verify_value_references name (litS "aws_instance.web.id") (availableRefs main)).1 ∧
      Finding.mk .error (invalidRefMsg name (litS "aws_instance.web")) ∉
        (verify_value_references name (litS "aws_instance.web.id") (availableRefs main)).1) ∧
    (((litS "aws_instance", litS "web") ∉ resourcesOf main) →
      Finding.mk .error (invalidRefMsg name (litS "aws_instance.web")) ∈
        (verify_value_references name (litS "aws_instance.web.id") (availableRefs main)).1) := by
  have hfr : found_refs (litS "aws_instance.web.id") = [litS "aws_instance.web"] := by
    decide
  have hneg : ¬ (hasStart (litS "var.") (litS "aws_instance.web") = true ∨
      hasStart (litS "local.") (litS "aws_instance.web") = true) := by decide
  constructor
  · intro h
    have hmem : litS "aws_instance.web" ∈ availableRefs main :=
      (mem_availableRefs_aws_instance_web main).mpr h
    constructor
    · simp [verify_value_references, hfr, classifyRef, hneg, hmem]
    · simp [verify_value_references, hfr, classifyRef, hneg, hmem]
  · intro h
    have hmem : litS "aws_instance.web" ∉ availableRefs main := fun hm =>
      h ((mem_availableRefs_aws_instance_web main).mp hm)
    simp [verify_value_references, hfr, classifyRef, hneg, hmem]

/-- Witness for C1 at concrete main files: with the declaration present the
info finding is recorded; with an empty main file the error finding is
recorded. -/
theorem output_ref_aws_instance_web_w :
    Finding.mk .info (validRefMsg (litS "o") (litS "aws_instance.web")) ∈
      (verify_value_references (litS "o") (litS "aws_instance.web.id")
        (availableRefs (litS "resource \x22aws_instance\x22 \x22web\x22 \x7b\x7d"))).1 ∧
    Finding.mk .error (invalidRefMsg (litS "o") (litS "aws_instance.web")) ∈
      (verify_value_references (litS "o") (litS "aws_instance.web.id")
        (availableRefs (litS ""))).1 :=
  ⟨((output_ref_aws_instance_web (litS "resource \x22aws_instance\x22 \x22web\x22 \x7b\x7d")
      (litS "o")).1 (by decide)).1,
   (output_ref_aws_instance_web (litS "") (litS "o")).2 (by decide)⟩

/-- C2 counterexample: the block `output "a" \x7bvalue\n= x\x7d` parses with
captured content `value\n= x`; no single line of that content matches
`value\s*=` (the `value` and the `=` sit on different lines), yet the
verifier extracts a value (the regex whitespace class spans the newline)
and records zero errors for this output, not exactly one. -/
theorem output_missing_value_per_line_cex :
    ((litS "a", litS "value\n= x") ∈
        outputDict (litS "output \x22a\x22 \x7bvalue\n= x\x7d")) ∧
    (∀ l ∈ splitOnChar '\n' (litS "value\n= x"), searchValueKey l = false) ∧
    ¬ errCount (processOutput (litS "a") (litS "value\n= x") []) = 1 := by
  decide

lemma errCount_append (a b : List Finding) :
    errCount (a ++ b) = errCount a + errCount b :=
  List.countP_append _ _ _

/-- C2 (amended): for every parsed output block whose captured content has
no match of `value\s*=` anywhere (the regex search runs over the whole
content and `\s` may span newlines), the verifier records exactly one
error finding for that output — the missing-value error — and zero
reference-classification findings. -/
theorem output_missing_value_one_error (file name c : Str) (avail : List Str)
    (_hmem : (name, c) ∈ outputDict file) (hv : extract_value c = none) :
    errCount (processOutput name c avail) = 1 ∧
      refClassFindings name c avail = [] := by
  constructor
  · unfold processOutput
    rw [errCount_append]
    have h1 : errCount (descFindings name c) = 0 := by
      unfold descFindings
      split <;> simp [errCount, isErr]
    have h2 : errCount (valueFindings name c avail) = 1 := by
      unfold valueFindings
      simp [pyTruthy, hv, errCount, isErr]
    omega
  · simp [refClassFindings, hv]

/-- Witness for C2's amended theorem on a concrete outputs file whose
single block has a description but no value. -/
theorem output_missing_value_one_error_w :
    errCount (processOutput (litS "a") (litS " description = \x22d\x22 ") []) = 1 ∧
      refClassFindings (litS "a") (litS " description = \x22d\x22 ") [] = [] :=
  output_missing_value_one_error
    (litS "output \x22a\x22 \x7b description = \x22d\x22 \x7d")
    (litS "a") (litS " description = \x22d\x22 ") [] (by decide) (by decide)

/-- C7: a reference-shaped substring found in an output value that starts
with `var.` or `local.` is only reported as an informational printed line;
it is never compared against the available-reference set and never
produces a recorded finding — in particular no error — whatever the main
file declares. -/
theorem var_local_refs_only_informational (name v : Str) (avail : List Str) (ref : Str)
    (h1 : ref ∈ found_refs v)
    (h2 : hasStart (litS "var.") ref = true ∨ hasStart (litS "local.") ref = true) :
    varLocalPrintLine ref ∈ (verify_value_references name v avail).2 ∧
    Finding.mk .info (validRefMsg name ref) ∉ (verify_value_references name v avail).1 ∧
    Finding.mk .error (invalidRefMsg name ref) ∉ (verify_value_references name v avail).1 := by
  have hcond : (hasStart (litS "var.") ref || hasStart (litS "local.") ref) = true := by
    rcases h2 with h | h <;> simp [h]
  refine ⟨?_, ?_, ?_⟩
  · unfold verify_value_references
    simp only [List.mem_flatMap]
    exact ⟨ref, h1, by simp [classifyRef, hcond]⟩
  · intro hmem
    unfold verify_value_references at hmem
    simp only [List.mem_flatMap] at hmem
    obtain ⟨r, hr, hfin⟩ := hmem
    unfold classifyRef at hfin
    by_cases hc : (hasStart (litS "var.") r || hasStart (litS "local.") r) = true
    · simp [hc] at hfin
    · by_cases hm : r ∈ avail
      · simp [hc, hm] at hfin
        have : ref = r := by
          simpa [validRefMsg, List.append_assoc] using hfin
        rw [this] at hcond
        exact hc hcond
      · simp [hc, hm] at hfin
  · intro hmem
    unfold verify_value_references at hmem
    simp only [List.mem_flatMap] at hmem
    obtain ⟨r, hr, hfin⟩ := hmem
    unfold classifyRef at hfin
    by_cases hc : (hasStart (litS "var.") r || hasStart (litS "local.") r) = true
    · simp [hc] at hfin
    · by_cases hm : r ∈ avail
      · simp [hc, hm] at hfin
      · simp [hc, hm] at hfin
        have : ref = r := by
          simpa [invalidRefMsg, List.append_assoc] using hfin
        rw [this] at hcond
        exact hc hcond

/-- Witness for C7 at a concrete value `var.foo` against a non-empty
available-reference set. -/
theorem var_local_refs_only_informational_w :
    varLocalPrintLine (litS "var.foo") ∈
      (verify_value_references (litS "o") (litS "var.foo") [litS "x"]).2 ∧
    Finding.mk .info (validRefMsg (litS "o") (litS "var.foo")) ∉
      (verify_value_references (litS "o") (litS "var.foo") [litS "x"]).1 ∧
    Finding.mk .error (invalidRefMsg (litS "o") (litS "var.foo")) ∉
      (verify_value_references (litS "o") (litS "var.foo") [litS "x"]).1 :=
  var_local_refs_only_informational (litS "o") (litS "var.foo") [litS "x"]
    (litS "var.foo") (by decide) (Or.inl (by decide))

/-- C3: a directory missing any of the four required files makes the
module structure checker record an error-level finding, and the
validator's boolean summary is `False`. -/
theorem missing_required_file_fails (fs : FS) (f : Str)
    (h1 : f ∈ requiredFiles) (h2 : fsHas fs f = false) :
    0 < errCount (validate_file_structure fs) ∧ run_validation fs = false := by
  have hpos : 0 < errCount (validate_file_structure fs) := by
    unfold errCount validate_file_structure
    rw [List.countP_append]
    have hmem : (⟨.error, litS "✗ Missing required file: " ++ f⟩ : Finding) ∈
        requiredFiles.map (fun f =>
          if fsHas fs f then ⟨.info, litS "✓ Required file exists: " ++ f⟩
          else (⟨.error, litS "✗ Missing required file: " ++ f⟩ : Finding)) := by
      refine List.mem_map.mpr ⟨f, h1, ?_⟩
      simp [h2]
    have hcp : 0 < List.countP isErr (requiredFiles.map (fun f =>
        if fsHas fs f then ⟨.info, litS "✓ Required file exists: " ++ f⟩
        else (⟨.error, litS "✗ Missing required file: " ++ f⟩ : Finding))) :=
      List.countP_pos_iff.mpr ⟨_, hmem, rfl⟩
    omega
  refine ⟨hpos, ?_⟩
  have htot : 0 < errCount (run_validation_findings fs) := by
    unfold run_validation_findings
    simp only [errCount_append]
    omega
  unfold run_validation
  rw [beq_eq_false_iff_ne]
  omega

/-- Witness for C3 on the empty directory. -/
theorem missing_required_file_fails_w :
    0 < errCount (validate_file_structure ⟨[], []⟩) ∧ run_validation ⟨[], []⟩ = false :=
  missing_required_file_fails ⟨[], []⟩ (litS "main.tf") (by decide) (by decide)

/-- C4: equal global brace counts yield zero brace errors for the file;
unequal counts yield exactly one error finding whose message carries the
open count and the close count. -/
theorem bracket_balance_findings (content fname : Str) :
    (List.count '\x7b' content = List.count '\x7d' content →
      errCount (check_brackets content fname) = 0) ∧
    (List.count '\x7b' content ≠ List.count '\x7d' content →
      ∃ m : Str, check_brackets content fname = [⟨.error, m⟩] ∧
        ∃ p q r : Str, m = p ++ natStr (List.count '\x7b' content) ++ q ++
          natStr (List.count '\x7d' content) ++ r) := by
  constructor
  · intro h
    simp [check_brackets, h, errCount, isErr]
  · intro h
    refine ⟨litS "✗ " ++ fname ++ litS ": Unbalanced braces - " ++
      natStr (List.count '\x7b' content) ++ litS " open, " ++
      natStr (List.count '\x7d' content) ++ litS " close", ?_, ?_⟩
    · simp [check_brackets, h]
    · refine ⟨litS "✗ " ++ fname ++ litS ": Unbalanced braces - ", litS " open, ",
        litS " close", ?_⟩
      simp [List.append_assoc]

/-- Witness for C4: a balanced file and the one-character file `\x7b`. -/
theorem bracket_balance_findings_w :
    errCount (check_brackets (litS "a\x7b\x7d") (litS "main.tf")) = 0 ∧
    ∃ m : Str, check_brackets (litS "\x7b") (litS "main.tf") = [⟨.error, m⟩] ∧
      ∃ p q r : Str, m = p ++ natStr (List.count '\x7b' (litS "\x7b")) ++ q ++
        natStr (List.count '\x7d' (litS "\x7b")) ++ r :=
  ⟨(bracket_balance_findings (litS "a\x7b\x7d") (litS "main.tf")).1 (by decide),
   (bracket_balance_findings (litS "\x7b") (litS "main.tf")).2 (by decide)⟩

/-- C6 counterexample: for a variable named `name` the simulator judges
the value `invalid_name` invalid even though that value matches the
repository's own snake_case pattern (`^[a-z][a-z0-9_]*$`, the one
`validate_naming_conventions` uses): the rule applied is not a snake-case
pattern — it rejects underscores. -/
theorem name_rule_not_snake_case_cex :
    containsSub (litS "name") (pyLower (litS "name")) = true ∧
    simulate_validation (litS "name") (.str (litS "invalid_name"))
      ⟨Option.none, Option.none, []⟩ = false ∧
    snakeMatch (litS "invalid_name") = true := by decide

/-- C6 (amended): for every variable whose name contains `name` or
`prefix` (and not `region`, `cidr`, or `ami`), and whose declared type
mentions neither `bool` nor `list`, the simulator judges a string value by
the lowercase-hyphen pattern `^[a-z][a-z0-9-]*[a-z0-9]$` (underscores
rejected); in particular `invalid_name` is judged by that rule (and
fails it). -/
theorem name_vars_use_kebab_rule (varName v : Str) (info : VarInfo)
    (h1 : containsSub (litS "name") (pyLower varName) = true ∨
          containsSub (litS "prefix") (pyLower varName) = true)
    (h2 : containsSub (litS "region") (pyLower varName) = false)
    (h3 : containsSub (litS "cidr") (pyLower varName) = false)
    (h4 : containsSub (litS "ami") (pyLower varName) = false)
    (h5 : containsSub (litS "bool") (typeStrOf info.type?) = false)
    (h6 : containsSub (litS "list") (typeStrOf info.type?) = false) :
    simulate_validation varName (.str v) info = kebabMatch v := by
  unfold simulate_validation
  simp only [h2, h3, h4, h5, h6, Bool.false_and, Bool.false_eq_true, if_false]
  rcases h1 with h | h <;> simp [h]

/-- Witness for C6's amended theorem at a concrete variable and value. -/
theorem name_vars_use_kebab_rule_w :
    simulate_validation (litS "app_name") (.str (litS "invalid_name"))
      ⟨Option.none, Option.none, []⟩ = kebabMatch (litS "invalid_name") :=
  name_vars_use_kebab_rule (litS "app_name") (litS "invalid_name")
    ⟨Option.none, Option.none, []⟩ (Or.inl (by decide)) (by decide) (by decide)
    (by decide) (by decide) (by decide)

/-- C10: a missing variables file, or one in which the variable-block
pattern finds nothing, makes the simulator's top-level check return
`False` — an empty extraction is reported as failure, not a vacuous
pass. -/
theorem empty_variables_fail (fs : FS)
    (h : fsHas fs (litS "variables.tf") = false ∨
         blockFindall (litS "variable") (fsContent fs (litS "variables.tf")) = []) :
    test_variable_combinations fs = false := by
  have hempty : load_variable_validations fs = [] := by
    rcases h with h | h
    · simp [load_variable_validations, h]
    · unfold load_variable_validations
      split
      · rw [h]
        rfl
      · rfl
  simp [test_variable_combinations, hempty]

/-- Witness for C10 on the empty directory. -/
theorem empty_variables_fail_w : test_variable_combinations ⟨[], []⟩ = false :=
  empty_variables_fail ⟨[], []⟩ (Or.inl (by decide))

/-- C8: the orchestrator exits with status 0 exactly when every entry of
the results list — the three subprocess checks and the best-practices
check — is a success. -/
theorem exit_zero_iff_all_pass (r1 r2 r3 : Bool) (fs : FS) :
    main_exit_code r1 r2 r3 fs = 0 ↔
      ∀ p ∈ validation_results r1 r2 r3 fs, p.2 = true := by
  unfold main_exit_code main_result validation_results check_terraform_best_practices
  cases r1 <;> cases r2 <;> cases r3 <;> simp

/-- C9: the best-practices check returns `True` for every module
directory, so it can never make the orchestrator fail: with the three
subprocess checks passing, the exit status is 0 whatever the directory
contains. -/
theorem best_practices_always_true (fs : FS) :
    (check_terraform_best_practices fs).2 = true ∧
      main_exit_code true true true fs = 0 := by
  constructor
  · rfl
  · rfl

end TfTools
